import Mathlib

/-!
# Verification of the asynchronous job lifecycle controller

Shallow embedding of the polling/submission core of the lung-disease-detector
frontend:

* `usePolling.js` — a timer-driven polling engine implemented as a React hook.
  We model its observable state (`Eng`) and its event-level small-step
  semantics (`estep`): timer firings, probe settlements, and disabling.
  React specifics that matter are modelled faithfully:
  the `tick` closure captures the `attempts` value of the render in which the
  effect ran; the effect has dependency list
  `[enabled, interval, maxAttempts, fn, attempts]`, so any change of
  `attempts` re-runs the cleanup (clearing the referenced timer) and the
  effect body (which, when enabled, sets `isPolling` and schedules a fresh
  tick).  Pending timers are kept as a *list* of `(id, captured attempts)`
  pairs so that "there is never more than one pending timer" is a theorem,
  not a modelling assumption; `timerRef` models the single `useRef` cell and
  `clearTimeout(timerRef.current)` removes exactly the referenced timer.
* `usePrediction.js` — the submission controller (`submit`, `startPolling`)
  over `PredState`, composed with the engine into `Sys` / `sysStep`.
* `api.js` — the response interceptor's error-message selection
  (`interceptorMessage`).
* the `Result` route component — `renderResult`, for the no-handoff fallback.

Timer delays (`interval`) do not affect event ordering here because at most
one timer is ever pending, so the embedding elides wall-clock time and keeps
only the firing events.
-/

namespace LungApp

/-- Outcome of one awaited `fn()` call as observed by `tick` in
`usePolling.js`: the promise resolved `true` (keep polling), resolved
`false` (stop), or rejected (the `catch` branch). -/
inductive Outcome
  | contin
  | halt
  | exn
deriving DecidableEq, Repr

/-- Observable state of the `usePolling` hook.  `timers` is the multiset of
currently pending `setTimeout` callbacks, each carrying its id and the
`attempts` value captured by the `tick` closure that was scheduled;
`timerRef` is the `useRef` cell holding the last-created timer id;
`inflight` is the list of probe calls whose `await fn()` has not settled yet
(each carrying the scheduling closure's captured `attempts`);
`probeCount` counts how many times `tick` has been invoked, i.e. how many
probe calls have been made. -/
structure Eng where
  attempts : Nat
  isPolling : Bool
  enabled : Bool
  timers : List (Nat × Nat)
  timerRef : Option Nat
  inflight : List Nat
  nextId : Nat
  probeCount : Nat
deriving DecidableEq, Repr

/-- `if (timerRef.current) clearTimeout(timerRef.current)` — removes the
referenced pending timer, if any (usePolling.js lines 10 and 38). -/
def clearRef (e : Eng) : Eng :=
  match e.timerRef with
  | none => e
  | some r => { e with timers := e.timers.filter (fun t => t.1 != r) }

/-- `timerRef.current = setTimeout(tick, interval)` where the scheduled
`tick` closure captured the value `captured` for `attempts`
(usePolling.js lines 29 and 35). -/
def schedule (captured : Nat) (e : Eng) : Eng :=
  { e with
      timers := (e.nextId, captured) :: e.timers
      timerRef := some e.nextId
      nextId := e.nextId + 1 }

/-- One run of the `useEffect` body, preceded by the cleanup of the previous
subscription (usePolling.js lines 8-40): the cleanup clears the referenced
timer; then, if `enabled` is false, the body clears the timer again and
resets `isPolling`; otherwise it sets `isPolling` and schedules `tick`,
whose closure captures the current `attempts`. -/
def runEffect (e : Eng) : Eng :=
  if (clearRef e).enabled then
    schedule (clearRef e).attempts { clearRef e with isPolling := true }
  else
    { clearRef (clearRef e) with isPolling := false }

/-- The continuation of `tick` after `await fn()` settles
(usePolling.js lines 17-33), where `a` is the `attempts` value captured by
the `tick` closure.  On `contin`: `setAttempts(prev => prev + 1)` (a
functional update on the live value), then the stale-closure exhaustion
check `attempts + 1 >= maxAttempts`, then either stop or re-schedule the
same closure; in either case the `attempts` state change re-runs the effect
(its dependency list contains `attempts`), which is the final `runEffect`.
On `halt` or `exn`: only `setIsPolling(false)`, which is not a dependency,
so the effect does not re-run. -/
def tickCont (maxAttempts : Nat) (a : Nat) (o : Outcome) (e : Eng) : Eng :=
  match o with
  | .exn => { e with isPolling := false }
  | .halt => { e with isPolling := false }
  | .contin =>
    runEffect
      (if maxAttempts ≤ a + 1 then
        { e with attempts := e.attempts + 1, isPolling := false }
      else
        schedule a { e with attempts := e.attempts + 1 })

/-- Events of the standalone polling engine: a pending timer fires (its
`tick` begins and calls `fn`, which is then in flight), an in-flight call
settles with an outcome, or the hook is disabled (`stop()`: the `enabled`
prop goes false and the effect re-runs). -/
inductive EEv
  | fire (id : Nat)
  | settle (o : Outcome)
  | disable
deriving DecidableEq, Repr

/-- Small-step semantics of `usePolling`; `none` when the event is not
enabled in the given state. -/
def estep (maxAttempts : Nat) (e : Eng) : EEv → Option Eng
  | .fire id =>
    match e.timers.find? (fun t => t.1 == id) with
    | none => none
    | some t =>
      some { e with
        timers := e.timers.filter (fun u => u.1 != id)
        inflight := t.2 :: e.inflight
        probeCount := e.probeCount + 1 }
  | .settle o =>
    match e.inflight with
    | [] => none
    | a :: rest => some (tickCont maxAttempts a o { e with inflight := rest })
  | .disable =>
    if e.enabled then some (runEffect { e with enabled := false }) else none

/-- The hook's state right after mounting with the given `enabled` flag:
all `useState`/`useRef` initial values, followed by the first effect run. -/
def engInit (enabled : Bool) : Eng :=
  runEffect
    { attempts := 0, isPolling := false, enabled := enabled, timers := []
      timerRef := none, inflight := [], nextId := 0, probeCount := 0 }

/-- Reachability in the engine's event semantics. -/
inductive EngReach (maxAttempts : Nat) : Eng → Eng → Prop
  | refl (e : Eng) : EngReach maxAttempts e e
  | step {a b c : Eng} (h : EngReach maxAttempts a b) (ev : EEv)
      (hs : estep maxAttempts b ev = some c) : EngReach maxAttempts a c

/-- Run a list of engine events from a state, failing if any event is not
enabled. -/
def erun (maxAttempts : Nat) (evs : List EEv) (e : Eng) : Option Eng :=
  evs.foldlM (estep maxAttempts) e

/-- The terminal result payload.  The controller only ever reads its `id`
(for the navigation target); all other fields are opaque pass-through, so
they are not modelled. -/
structure Prediction where
  id : Nat
deriving DecidableEq, Repr

/-- State held by `usePrediction.js` (lines 8-12). -/
structure PredState where
  file : Option String
  isSubmitting : Bool
  taskId : Option String
  predictionId : Option Nat
  prediction : Option Prediction
deriving DecidableEq, Repr

/-- Externally observable side effects of the controller: toasts, router
navigations, and outgoing network requests. -/
inductive Action
  | toastError (msg : String)
  | navigate (path : String)
  | network (endpoint : String)
deriving DecidableEq, Repr

/-- Body of a poll response (`getTaskStatus`), spec section 6: `status` plus
an optional `prediction` payload and an optional `error` string. -/
structure PollData where
  status : String
  prediction : Option Prediction
  error : Option String
deriving DecidableEq, Repr

/-- Body of a submission response (`uploadImage`), spec section 6. -/
structure SubmitData where
  cached : Bool
  prediction : Option Prediction
  task_id : Option String
  prediction_id : Option Nat
deriving DecidableEq, Repr

/-- `startPolling` from usePrediction.js lines 15-28, applied to the data of
a resolved `getTaskStatus` response: returns the `shouldContinue` boolean
handed to the polling engine, the updated controller state, and the emitted
actions.  With no `taskId` it returns `false` before any request (line 16).
`data.status === "completed" && data.prediction` stores the payload and
navigates; `data.status === "failed"` raises a fixed toast (the response's
`error` field is not read); anything else returns `true`. -/
def startPolling (st : PredState) (d : PollData) : Bool × PredState × List Action :=
  match st.taskId with
  | none => (false, st, [])
  | some _ =>
    let acts := [Action.network "getTaskStatus"]
    if d.status = "completed" then
      match d.prediction with
      | some p =>
        (false, { st with prediction := some p },
         acts ++ [Action.navigate ("/result/" ++ toString p.id)])
      | none => (true, st, acts)
    else if d.status = "failed" then
      (false, st, acts ++ [Action.toastError "Prediction failed. Please try again."])
    else
      (true, st, acts)

/-- `submit` from usePrediction.js lines 36-54, applied to the data of a
resolved `uploadImage` response.  With no file selected it toasts and
returns before touching any state or the network.  Otherwise it issues the
upload request, then: `data.cached && data.prediction` stores the payload
and navigates; else `data.task_id` stores the task id (and the optional
`prediction_id`); the `finally` clears `isSubmitting`. -/
def submit (st : PredState) (d : SubmitData) : PredState × List Action :=
  match st.file with
  | none => (st, [Action.toastError "Please select an image first."])
  | some _ =>
    let st1 := { st with isSubmitting := true }
    let acts := [Action.network "uploadImage"]
    let (st2, acts2) :=
      match d.cached, d.prediction with
      | true, some p =>
        ({ st1 with prediction := some p },
         acts ++ [Action.navigate ("/result/" ++ toString p.id)])
      | _, _ =>
        match d.task_id with
        | some t =>
          let stA := { st1 with taskId := some t }
          let stB :=
            match d.prediction_id with
            | some pid => { stA with predictionId := some pid }
            | none => stA
          (stB, acts)
        | none => (st1, acts)
    ({ st2 with isSubmitting := false }, acts2)

/-- The `disabled` predicate of the submit button in Upload.jsx line 231:
`!file || isSubmitting || isPolling`. -/
def uploadDisabled (file : Option String) (isSubmitting isPolling : Bool) : Bool :=
  file.isNone || isSubmitting || isPolling

/-- The transport-level error object seen by the api.js response
interceptor: `error.response.data.detail`, `error.response.data.error`, and
`error.message`, each possibly absent. -/
structure TransportError where
  detail : Option String
  errorBody : Option String
  message : Option String
deriving DecidableEq, Repr

/-- The message chosen by the api.js response interceptor (lines 17-28):
`detail || data.error || error.message || "Unexpected error, please try
again."` (empty strings are not modelled separately from absent fields). -/
def interceptorMessage (e : TransportError) : String :=
  e.detail.getD (e.errorBody.getD (e.message.getD "Unexpected error, please try again."))

/-- The composed system: the `usePrediction` controller state, the polling
engine it instantiates with `enabled = !!taskId`, `maxAttempts = 40`
(usePrediction.js lines 30-34), and the accumulated action log. -/
structure Sys where
  pred : PredState
  eng : Eng
  log : List Action
deriving DecidableEq, Repr

/-- Engine-driven events of the composed system: a pending timer fires;
the in-flight `startPolling` call settles with a poll response; or it
settles by throwing a transport error (which the interceptor toasts and the
tick's `catch` absorbs). -/
inductive SEv
  | fire (id : Nat)
  | settleData (d : PollData)
  | settleThrow (e : TransportError)
deriving DecidableEq, Repr

/-- `maxAttempts` as configured by usePrediction.js line 33. -/
def predMaxAttempts : Nat := 40

/-- Small-step semantics of the composed system. -/
def sysStep (s : Sys) : SEv → Option Sys
  | .fire id =>
    match s.eng.timers.find? (fun t => t.1 == id) with
    | none => none
    | some t =>
      some { s with eng := { s.eng with
        timers := s.eng.timers.filter (fun u => u.1 != id)
        inflight := t.2 :: s.eng.inflight
        probeCount := s.eng.probeCount + 1 } }
  | .settleData d =>
    match s.eng.inflight with
    | [] => none
    | a :: rest =>
      let r := startPolling s.pred d
      let o := if r.1 then Outcome.contin else Outcome.halt
      some { pred := r.2.1
             eng := tickCont predMaxAttempts a o { s.eng with inflight := rest }
             log := s.log ++ r.2.2 }
  | .settleThrow te =>
    match s.eng.inflight with
    | [] => none
    | a :: rest =>
      some { s with
             eng := tickCont predMaxAttempts a Outcome.exn { s.eng with inflight := rest }
             log := s.log ++ [Action.toastError (interceptorMessage te)] }

/-- Reachability in the composed system. -/
inductive SysReach : Sys → Sys → Prop
  | refl (s : Sys) : SysReach s s
  | step {a b c : Sys} (h : SysReach a b) (ev : SEv)
      (hs : sysStep b ev = some c) : SysReach a c

/-- Run a list of system events from a state. -/
def srun (evs : List SEv) (s : Sys) : Option Sys :=
  evs.foldlM sysStep s

/-- A `submit` call at the system level: the controller transition, followed
by React's reconciliation of the polling hook.  The hook's `enabled` prop is
recomputed as `!!taskId`; its effect (and the `startPolling` callback
identity) depend on `taskId` and `predictionId`, so the effect re-runs
exactly when one of those changed. -/
def submitStep (s : Sys) (d : SubmitData) : Sys :=
  let r := submit s.pred d
  let eng1 := { s.eng with enabled := r.1.taskId.isSome }
  let eng2 :=
    if r.1.taskId = s.pred.taskId ∧ r.1.predictionId = s.pred.predictionId then eng1
    else runEffect eng1
  { pred := r.1, eng := eng2, log := s.log ++ r.2 }

/-- The freshly mounted system: no file, no job, engine mounted disabled. -/
def sysInit : Sys :=
  { pred := { file := none, isSubmitting := false, taskId := none
              predictionId := none, prediction := none }
    eng := engInit false
    log := [] }

/-- `setFile` (usePrediction.js line 8 / Upload.jsx `onDrop`): selecting a
file changes no effect dependency, so the engine is untouched. -/
def setFileStep (s : Sys) (f : String) : Sys :=
  { s with pred := { s.pred with file := some f } }

/-- What the `Result` route component renders, as a function of the
handed-off payload `location.state?.prediction` (the route's `:id` segment
is read but never used to decide the branch). -/
inductive Rendering
  | notFound (backTarget : String) (message : String)
  | details (p : Prediction)
deriving DecidableEq, Repr

/-- The `Result` component's branch on the handoff: with no prediction in
the navigation state it renders the fallback block with a "Back to upload"
button navigating to "/" (the `Upload` route in App.jsx) and an explanatory
message; otherwise it renders the detail view of the payload (whose inner
markup is irrelevant here and abstracted to `details p`). -/
def renderResult (_routeId : String) (handoff : Option Prediction) : Rendering :=
  match handoff with
  | none =>
    Rendering.notFound "/"
      "Prediction details are not available in this session. Please upload an image again to view a detailed result."
  | some p => Rendering.details p

/-! ## Concrete scenario fixtures

States computed by running the semantics on the scenarios of spec sections
7 and 8; each is pinned as an explicit record so that trace equalities are
kernel-checkable. -/

/-- Engine state after the first timer fires from a freshly enabled hook:
one probe in flight, no pending timer. -/
def fireMid : Eng :=
  { attempts := 0, isPolling := true, enabled := true, timers := []
    timerRef := some 0, inflight := [0], nextId := 1, probeCount := 1 }

/-- Engine state after `stop()` (disable) arrives while that probe is still
in flight: timer cleared, but the probe continuation is still pending. -/
def stopMid : Eng :=
  { attempts := 0, isPolling := false, enabled := false, timers := []
    timerRef := some 0, inflight := [0], nextId := 1, probeCount := 1 }

/-- Engine state after the stale in-flight probe settles with a `processing`
outcome, after the stop: the attempt counter has moved. -/
def stopStale : Eng :=
  { attempts := 1, isPolling := false, enabled := false, timers := []
    timerRef := some 1, inflight := [], nextId := 2, probeCount := 1 }

/-- A trace in which the probe keeps answering `processing` against an
attempt budget of 2: three full fire/settle rounds. -/
def budgetOverrunTrace : List EEv :=
  [EEv.fire 0, EEv.settle Outcome.contin, EEv.fire 2, EEv.settle Outcome.contin,
   EEv.fire 3, EEv.settle Outcome.contin]

/-- The state that trace reaches: three probes performed against a budget of
two, and yet another tick already pending. -/
def budgetOverrunFinal : Eng :=
  { attempts := 3, isPolling := true, enabled := true, timers := [(4, 3)]
    timerRef := some 4, inflight := [], nextId := 5, probeCount := 3 }

/-- A dispatched submission response: `{task_id: "t1", cached: false,
prediction_id: 7}`. -/
def dispatchResp : SubmitData :=
  { cached := false, prediction := none, task_id := some "t1", prediction_id := some 7 }

/-- A cache-hit submission response: `{cached: true, prediction: {id: 5}}`. -/
def cacheResp : SubmitData :=
  { cached := true, prediction := some { id := 5 }, task_id := none, prediction_id := none }

/-- The mounted system after the user selects a file. -/
def sysReady : Sys := setFileStep sysInit "xray.png"

/-- The system right after a dispatched submission: polling enabled, first
tick pending. -/
def sysDispatched : Sys := submitStep sysReady dispatchResp

/-- A `{status: "processing"}` poll response. -/
def processingResp : PollData :=
  { status := "processing", prediction := none, error := none }

/-- A `{status: "failed", error: "x"}` poll response. -/
def failedRespX : PollData :=
  { status := "failed", prediction := none, error := some "x" }

/-- Spec section 8, scenario D: probe settles `processing`, then
`failed` with reason "x". -/
def scenarioDTrace : List SEv :=
  [SEv.fire 0, SEv.settleData processingResp, SEv.fire 2, SEv.settleData failedRespX]

/-- The state scenario D reaches: two probes performed, polling stopped, a
generic failure toast in the log. -/
def scenarioDFinal : Sys :=
  { pred := { file := some "xray.png", isSubmitting := false, taskId := some "t1"
              predictionId := some 7, prediction := none }
    eng := { attempts := 1, isPolling := false, enabled := true, timers := []
             timerRef := some 2, inflight := [], nextId := 3, probeCount := 2 }
    log := [Action.network "uploadImage", Action.network "getTaskStatus",
            Action.network "getTaskStatus",
            Action.toastError "Prediction failed. Please try again."] }

/-- A transport-level error with only a low-level message attached. -/
def throwErr : TransportError :=
  { detail := none, errorBody := none, message := some "Network Error" }

/-- The system after the first probe fires from `sysDispatched` and its
`getTaskStatus` call is in flight. -/
def throwMid : Sys :=
  { pred := { file := some "xray.png", isSubmitting := false, taskId := some "t1"
              predictionId := some 7, prediction := none }
    eng := fireMid
    log := [Action.network "uploadImage"] }

/-- The first probe of `sysDispatched` fails at the transport level. -/
def throwTrace : List SEv := [SEv.fire 0, SEv.settleThrow throwErr]

/-- The state after that transport failure: no attempt consumed, polling
stopped, the interceptor toast logged. -/
def throwFinal : Sys :=
  { pred := { file := some "xray.png", isSubmitting := false, taskId := some "t1"
              predictionId := some 7, prediction := none }
    eng := { attempts := 0, isPolling := false, enabled := true, timers := []
             timerRef := some 0, inflight := [], nextId := 1, probeCount := 1 }
    log := [Action.network "uploadImage", Action.toastError "Network Error"] }

/-- Controller state mid-polling: a file selected and a task dispatched. -/
def pollingPred : PredState :=
  { file := some "xray.png", isSubmitting := false, taskId := some "t1"
    predictionId := some 7, prediction := none }

/-- A second dispatched response, carrying a different task id. -/
def secondResp : SubmitData :=
  { cached := false, prediction := none, task_id := some "t2", prediction_id := none }

/-! ## Basic field lemmas for the engine operations -/

@[simp] lemma clearRef_attempts (e : Eng) : (clearRef e).attempts = e.attempts := by
  unfold clearRef; cases hr : e.timerRef <;> simp

@[simp] lemma clearRef_isPolling (e : Eng) : (clearRef e).isPolling = e.isPolling := by
  unfold clearRef; cases hr : e.timerRef <;> simp

@[simp] lemma clearRef_enabled (e : Eng) : (clearRef e).enabled = e.enabled := by
  unfold clearRef; cases hr : e.timerRef <;> simp

@[simp] lemma clearRef_timerRef (e : Eng) : (clearRef e).timerRef = e.timerRef := by
  unfold clearRef; cases hr : e.timerRef <;> simp [hr]

@[simp] lemma clearRef_inflight (e : Eng) : (clearRef e).inflight = e.inflight := by
  unfold clearRef; cases hr : e.timerRef <;> simp

@[simp] lemma clearRef_nextId (e : Eng) : (clearRef e).nextId = e.nextId := by
  unfold clearRef; cases hr : e.timerRef <;> simp

@[simp] lemma clearRef_probeCount (e : Eng) : (clearRef e).probeCount = e.probeCount := by
  unfold clearRef; cases hr : e.timerRef <;> simp

/-- If every pending timer is the one held in `timerRef`, the cleanup
removes all of them. -/
lemma clearRef_timers_nil (e : Eng) (haux : ∀ t ∈ e.timers, e.timerRef = some t.1) :
    (clearRef e).timers = [] := by
  unfold clearRef
  cases hr : e.timerRef with
  | none =>
    cases hts : e.timers with
    | nil => simp [hts]
    | cons t ts =>
      have := haux t (by rw [hts]; exact List.mem_cons_self t ts)
      rw [hr] at this
      cases this
  | some r =>
    simp only [List.filter_eq_nil_iff]
    intro t ht
    have := haux t ht
    rw [hr] at this
    have h1 : t.1 = r := by injection this.symm
    simp [h1]

lemma clearRef_timers_of_nil (e : Eng) (h : e.timers = []) : (clearRef e).timers = [] := by
  unfold clearRef; cases e.timerRef <;> simp [h]

/-! ## Field lemmas for `runEffect` -/

@[simp] lemma runEffect_attempts (e : Eng) : (runEffect e).attempts = e.attempts := by
  unfold runEffect; split <;> simp [schedule]

@[simp] lemma runEffect_enabled (e : Eng) : (runEffect e).enabled = e.enabled := by
  unfold runEffect; split <;> simp [schedule]

@[simp] lemma runEffect_inflight (e : Eng) : (runEffect e).inflight = e.inflight := by
  unfold runEffect; split <;> simp [schedule]

@[simp] lemma runEffect_probeCount (e : Eng) : (runEffect e).probeCount = e.probeCount := by
  unfold runEffect; split <;> simp [schedule]

/-- After an effect run whose cleanup can clear everything, the pending
timers are exactly one fresh tick when enabled, none otherwise. -/
lemma runEffect_timers (e : Eng) (haux : ∀ t ∈ e.timers, e.timerRef = some t.1) :
    (runEffect e).timers = if e.enabled then [(e.nextId, e.attempts)] else [] := by
  unfold runEffect
  have h1 : (clearRef e).timers = [] := clearRef_timers_nil e haux
  split
  next hen =>
    rw [clearRef_enabled] at hen
    simp [schedule, h1, hen]
  next hen =>
    rw [clearRef_enabled] at hen
    simp only [Bool.not_eq_true] at hen
    simp [clearRef_timers_of_nil _ h1, hen]

lemma runEffect_timerRef_enabled (e : Eng) (hen : e.enabled = true) :
    (runEffect e).timerRef = some e.nextId := by
  unfold runEffect
  split
  next => simp [schedule]
  next h => rw [clearRef_enabled, hen] at h; exact absurd rfl h

/-! ## The serialization invariant -/

/-- The core concurrency-discipline invariant of the engine: at most one
timer pending or probe in flight in total; every pending timer is the one
referenced by `timerRef` (so the cleanup really cancels it); and a disabled
engine has no pending timer. -/
def EngInv (e : Eng) : Prop :=
  e.timers.length + e.inflight.length ≤ 1 ∧
  (∀ t ∈ e.timers, e.timerRef = some t.1) ∧
  (e.enabled = false → e.timers = [])

lemma runEffect_EngInv (e : Eng) (haux : ∀ t ∈ e.timers, e.timerRef = some t.1)
    (hcond : e.enabled = false ∨ e.inflight = []) (hinf : e.inflight.length ≤ 1) :
    EngInv (runEffect e) := by
  have ht := runEffect_timers e haux
  refine ⟨?_, ?_, ?_⟩
  · rw [ht, runEffect_inflight]
    cases hen : e.enabled with
    | false => simpa using hinf
    | true =>
      rcases hcond with hc | hc
      · rw [hen] at hc; cases hc
      · simp [hc]
  · intro t htm
    rw [ht] at htm
    cases hen : e.enabled with
    | false => rw [hen] at htm; simp at htm
    | true =>
      rw [hen] at htm
      simp only [if_true] at htm
      have := List.mem_singleton.mp htm
      rw [runEffect_timerRef_enabled e hen, this]
  · intro hen
    rw [ht, runEffect_enabled] at *
    rw [hen]
    simp

lemma tickCont_EngInv (m a : Nat) (o : Outcome) (e : Eng)
    (ht : e.timers = []) (hi : e.inflight = []) :
    EngInv (tickCont m a o e) := by
  cases o with
  | exn =>
    refine ⟨?_, ?_, fun _ => ?_⟩ <;> simp [tickCont, ht, hi]
  | halt =>
    refine ⟨?_, ?_, fun _ => ?_⟩ <;> simp [tickCont, ht, hi]
  | contin =>
    unfold tickCont
    by_cases hma : m ≤ a + 1
    · rw [if_pos hma]
      refine runEffect_EngInv _ ?_ (Or.inr ?_) ?_
      · intro t htm
        simp [ht] at htm
      · simp [hi]
      · simp [hi]
    · rw [if_neg hma]
      refine runEffect_EngInv _ ?_ (Or.inr ?_) ?_
      · intro t htm
        simp [schedule, ht] at htm
        simp [schedule, htm]
      · simp [schedule, hi]
      · simp [schedule, hi]

/-- `estep` preserves the invariant. -/
theorem estep_EngInv {m : Nat} {e e' : Eng} (h : EngInv e) (ev : EEv)
    (hs : estep m e ev = some e') : EngInv e' := by
  obtain ⟨hlen, haux, hdis⟩ := h
  cases ev with
  | fire id =>
    simp only [estep] at hs
    cases hf : e.timers.find? (fun t => t.1 == id) with
    | none => rw [hf] at hs; cases hs
    | some t =>
      rw [hf] at hs
      injection hs with hs
      subst hs
      have hmem : t ∈ e.timers := List.mem_of_find?_eq_some hf
      have hne : e.timers ≠ [] := List.ne_nil_of_mem hmem
      have hpos : 0 < e.timers.length := List.length_pos.mpr hne
      have hone : e.timers.length = 1 := by omega
      have hinf : e.inflight.length = 0 := by omega
      obtain ⟨u, hu⟩ := List.length_eq_one.mp hone
      have hfu : (u.1 == id) = true := by
        rw [hu] at hf
        simp only [List.find?] at hf
        cases hc : (u.1 == id) with
        | true => rfl
        | false => rw [hc] at hf; simp at hf
      have hfilter : e.timers.filter (fun v => v.1 != id) = [] := by
        rw [hu]
        simp [List.filter, bne, hfu]
      refine ⟨?_, ?_, ?_⟩
      · simp only [hfilter, List.length_nil, List.length_cons,
          List.length_eq_zero.mp hinf]
        omega
      · intro v hv
        rw [hfilter] at hv
        cases hv
      · intro hen
        rw [hdis hen] at hmem
        cases hmem
  | settle o =>
    simp only [estep] at hs
    cases hi : e.inflight with
    | nil => rw [hi] at hs; cases hs
    | cons a rest =>
      rw [hi] at hs
      injection hs with hs
      subst hs
      have hlen' : e.timers.length + (rest.length + 1) ≤ 1 := by
        rw [hi] at hlen; simpa using hlen
      have hts : e.timers = [] := List.length_eq_zero.mp (by omega)
      have hrest : rest = [] := List.length_eq_zero.mp (by omega)
      exact tickCont_EngInv m a o _ (by simp [hts]) (by simp [hrest])
  | disable =>
    simp only [estep] at hs
    split at hs
    · injection hs with hs
      subst hs
      exact runEffect_EngInv _ (by simpa using haux) (Or.inl rfl)
        (show e.inflight.length ≤ 1 by omega)
    · cases hs

lemma engInit_EngInv (b : Bool) : EngInv (engInit b) := by
  cases b
  · exact ⟨by decide, by decide, fun _ => by decide⟩
  · exact ⟨by decide, by decide, fun h => absurd h (by decide)⟩

/-- The invariant holds in every reachable state. -/
theorem EngInv_reach {m : Nat} {a b : Eng} (ha : EngInv a) (h : EngReach m a b) :
    EngInv b := by
  induction h with
  | refl => exact ha
  | step _ ev hs ih => exact estep_EngInv ih ev hs

@[simp] lemma tickCont_enabled (m a : Nat) (o : Outcome) (e : Eng) :
    (tickCont m a o e).enabled = e.enabled := by
  cases o with
  | exn => rfl
  | halt => rfl
  | contin =>
    unfold tickCont
    rw [runEffect_enabled]
    split <;> simp [schedule]

@[simp] lemma tickCont_probeCount (m a : Nat) (o : Outcome) (e : Eng) :
    (tickCont m a o e).probeCount = e.probeCount := by
  cases o with
  | exn => rfl
  | halt => rfl
  | contin =>
    unfold tickCont
    rw [runEffect_probeCount]
    split <;> simp [schedule]

/-- Once the engine is disabled, every further step leaves the engine
disabled, performs no probe call, and keeps the invariant. -/
lemma estep_disabled {m : Nat} {e e' : Eng} (hinv : EngInv e)
    (hen : e.enabled = false) (ev : EEv) (hs : estep m e ev = some e') :
    e'.enabled = false ∧ e'.probeCount = e.probeCount ∧ EngInv e' := by
  have hts : e.timers = [] := hinv.2.2 hen
  cases ev with
  | fire id =>
    simp only [estep, hts, List.find?] at hs
    cases hs
  | settle o =>
    simp only [estep] at hs
    cases hi : e.inflight with
    | nil => rw [hi] at hs; cases hs
    | cons a rest =>
      rw [hi] at hs
      injection hs with hs
      subst hs
      have hs' : estep m e (EEv.settle o) =
          some (tickCont m a o { e with inflight := rest }) := by
        simp only [estep, hi]
      exact ⟨by simp [hen], by simp, estep_EngInv hinv (EEv.settle o) hs'⟩
  | disable =>
    simp only [estep, hen] at hs
    cases hs

/-- Disabled engines stay disabled and never fire another probe, along any
event sequence. -/
lemma disabled_frozen {m : Nat} {e e' : Eng} (hinv : EngInv e)
    (hen : e.enabled = false) (h : EngReach m e e') :
    e'.enabled = false ∧ e'.probeCount = e.probeCount ∧ EngInv e' := by
  induction h with
  | refl => exact ⟨hen, rfl, hinv⟩
  | step _ ev hs ih =>
    obtain ⟨ihen, ihp, ihinv⟩ := ih
    obtain ⟨hen', hp', hinv'⟩ := estep_disabled ihinv ihen ev hs
    exact ⟨hen', by rw [hp', ihp], hinv'⟩

/-- A system state with no pending timer and no in-flight probe is stuck:
no engine-driven event applies, so it reaches only itself. -/
lemma sysFrozen {s s' : Sys} (h : SysReach s s') (ht : s.eng.timers = [])
    (hi : s.eng.inflight = []) : s' = s := by
  induction h with
  | refl => rfl
  | step _ ev hs ih =>
    subst ih
    cases ev with
    | fire id =>
      simp only [sysStep, ht, List.find?] at hs
      cases hs
    | settleData d =>
      simp only [sysStep, hi] at hs
      cases hs
    | settleThrow te =>
      simp only [sysStep, hi] at hs
      cases hs

/-! ## Claim theorems -/

/-- C1: the spec requires that, with a probe answering `processing` on every
call, the engine performs exactly `maxAttempts` probe calls, ends in the
terminal exhausted condition, and never performs another call.  The code
violates this: because the effect re-subscribes on every `attempts` change
while `enabled` stays true, it re-schedules a tick even after the
exhaustion check fired.  With a budget of 2, a third probe fires, the
attempt counter reaches 3 (exceeding the budget), and yet another tick is
still pending. -/
theorem usePolling_budget_overrun :
    erun 2 budgetOverrunTrace (engInit true) = some budgetOverrunFinal ∧
    budgetOverrunFinal.probeCount = 3 ∧
    budgetOverrunFinal.attempts = 3 ∧
    2 < budgetOverrunFinal.attempts ∧
    budgetOverrunFinal.timers ≠ [] := by decide

/-- C3 counterexample: the claim says a probe response arriving after
`stop()` is discarded and produces no state transition.  In the code the
in-flight tick's continuation still runs: starting from a freshly enabled
engine, fire the timer, disable (stop) while the probe is in flight, then
let the probe settle `processing` — the attempt counter moves from 0 to 1,
a state transition after stop. -/
theorem usePolling_stale_settle_mutates :
    erun 40 [EEv.fire 0, EEv.disable] (engInit true) = some stopMid ∧
    stopMid.attempts = 0 ∧
    stopMid.enabled = false ∧
    estep 40 stopMid (EEv.settle Outcome.contin) = some stopStale ∧
    stopStale.attempts = 1 := by decide

/-- C3 amended: after `stop()` (disable) no pending tick ever fires — every
state reachable from a reachable disabled state has no pending timer, a
frozen probe count, and stays disabled.  (The continuation of a probe
already in flight at stop time still runs and may mutate `attempts` and
`isPolling`, per the counterexample; any timer it schedules is cleared by
the re-run effect before it can fire.) -/
theorem usePolling_stop_blocks_ticks (m : Nat) (e e' : Eng)
    (h1 : EngReach m (engInit true) e) (hd : e.enabled = false)
    (h2 : EngReach m e e') :
    e'.timers = [] ∧ e'.probeCount = e.probeCount ∧ e'.enabled = false := by
  have hinv := EngInv_reach (engInit_EngInv true) h1
  obtain ⟨hen', hp, hinv'⟩ := disabled_frozen hinv hd h2
  exact ⟨hinv'.2.2 hen', hp, hen'⟩

/-- Witness for C3's amended theorem: instantiated on the concrete stopped
run `fire, disable` and the stale settle step. -/
theorem usePolling_stop_blocks_ticks_witness :
    stopStale.timers = [] ∧ stopStale.probeCount = stopMid.probeCount ∧
    stopStale.enabled = false :=
  usePolling_stop_blocks_ticks 40 stopMid stopStale
    (EngReach.step
      ((EngReach.step (EngReach.refl _) (EEv.fire 0) (by decide) :
        EngReach 40 (engInit true) fireMid))
      EEv.disable (by decide))
    (by decide)
    (EngReach.step (EngReach.refl _) (EEv.settle Outcome.contin) (by decide))

/-- C4: probes are strictly serialized — in every reachable engine state
there is at most one pending timer, at most one probe in flight, and never
one of each at the same time, across the effect's re-subscription on every
attempt-count change. -/
theorem usePolling_probes_serialized (m : Nat) (en : Bool) (e : Eng)
    (h : EngReach m (engInit en) e) :
    e.timers.length ≤ 1 ∧ e.inflight.length ≤ 1 ∧
    e.timers.length + e.inflight.length ≤ 1 := by
  have hinv := EngInv_reach (engInit_EngInv en) h
  obtain ⟨hlen, -, -⟩ := hinv
  exact ⟨by omega, by omega, hlen⟩

/-- Witness for C4: instantiated on the state reached after the first timer
fires. -/
theorem usePolling_probes_serialized_witness :
    fireMid.timers.length ≤ 1 ∧ fireMid.inflight.length ≤ 1 ∧
    fireMid.timers.length + fireMid.inflight.length ≤ 1 :=
  usePolling_probes_serialized 40 true fireMid
    (EngReach.step (EngReach.refl _) (EEv.fire 0) (by decide))

/-- C2 counterexample: the claim says a `submit()` while the Job is polling
is a no-op that issues no network call and reports "already in progress".
In the code, with a file selected and `taskId = "t1"` (polling), `submit`
issues another `uploadImage` request, emits no toast at all, and even
overwrites the task id. -/
theorem submit_while_polling_issues_call :
    (submit pollingPred secondResp).2 = [Action.network "uploadImage"] ∧
    (submit pollingPred secondResp).1.taskId = some "t2" := by decide

/-- C2 amended: `submit()` itself performs no in-progress precondition
check — whenever a file is selected it issues the upload request regardless
of the job's state; duplicate submissions are prevented only at the UI
level, where the Upload button is disabled whenever `isSubmitting` or
`isPolling` holds. -/
theorem submit_no_inprogress_guard (st : PredState) (d : SubmitData) (f : String)
    (hf : st.file = some f) :
    Action.network "uploadImage" ∈ (submit st d).2 ∧
    (∀ (fl : Option String) (su po : Bool), (su || po) = true →
      uploadDisabled fl su po = true) := by
  constructor
  · unfold submit
    rw [hf]
    rcases d with ⟨dc, dp, dt, di⟩
    cases dc <;> cases dp <;> cases dt <;> cases di <;> simp
  · intro fl su po h
    unfold uploadDisabled
    cases su <;> cases po <;> simp_all

/-- Witness for C2's amended theorem: instantiated on the mid-polling state
and a second dispatched response, and on the disabled-button predicate with
`isPolling` true. -/
theorem submit_no_inprogress_guard_witness :
    Action.network "uploadImage" ∈ (submit pollingPred secondResp).2 ∧
    uploadDisabled (some "xray.png") false true = true := by
  have h := submit_no_inprogress_guard pollingPred secondResp "xray.png" rfl
  exact ⟨h.1, h.2 (some "xray.png") false true rfl⟩

/-- C5 counterexample: the claim says a transport-level probe failure is
treated as a transient `processing` outcome — consuming exactly one
attempt, continuing polling if budget remains, invisible to the caller.  In
the code the tick's `catch` stops polling instead: after the first probe of
a dispatched job throws, the attempt counter is still 0 (no attempt
consumed), `isPolling` is false and no timer is pending (polling does not
continue although 39 attempts of budget remain), and the api interceptor
has surfaced the error as a toast. -/
theorem probe_throw_stops_polling :
    srun throwTrace sysDispatched = some throwFinal ∧
    throwFinal.eng.attempts = 0 ∧
    throwFinal.eng.isPolling = false ∧
    throwFinal.eng.timers = [] ∧
    Action.toastError "Network Error" ∈ throwFinal.log := by decide

/-- C5 amended: when a probe call throws, the engine consumes no attempt,
sets `isPolling` false without scheduling anything, leaves the controller
state untouched (no `Failed` transition), performs no probe call, and the
api response interceptor surfaces the transport error as a toast. -/
theorem probe_throw_amended (s s' : Sys) (te : TransportError)
    (hs : sysStep s (SEv.settleThrow te) = some s') :
    s'.eng.attempts = s.eng.attempts ∧
    s'.eng.isPolling = false ∧
    s'.eng.timers = s.eng.timers ∧
    s'.pred = s.pred ∧
    s'.eng.probeCount = s.eng.probeCount ∧
    s'.log = s.log ++ [Action.toastError (interceptorMessage te)] := by
  simp only [sysStep] at hs
  cases hi : s.eng.inflight with
  | nil => rw [hi] at hs; cases hs
  | cons a rest =>
    rw [hi] at hs
    injection hs with hs
    subst hs
    exact ⟨rfl, rfl, rfl, rfl, rfl, rfl⟩

/-- Witness for C5's amended theorem: instantiated on the concrete in-flight
state of the throw trace. -/
theorem probe_throw_amended_witness :
    throwFinal.eng.attempts = throwMid.eng.attempts ∧
    throwFinal.eng.isPolling = false ∧
    throwFinal.eng.timers = throwMid.eng.timers ∧
    throwFinal.pred = throwMid.pred ∧
    throwFinal.eng.probeCount = throwMid.eng.probeCount ∧
    throwFinal.log = throwMid.log ++ [Action.toastError (interceptorMessage throwErr)] :=
  probe_throw_amended throwMid throwFinal throwErr (by decide)

/-- C6: a submission whose response is a cache hit (`cached: true` with a
prediction) moves the Job directly to success — the result is stored, the
result navigation is emitted, `taskId` stays unset so the polling engine is
never enabled, and every reachable later state still has zero probe
calls. -/
theorem submit_cache_hit (s : Sys) (f : String) (p : Prediction) (d : SubmitData)
    (hf : s.pred.file = some f) (ht : s.pred.taskId = none)
    (he : s.eng = engInit false)
    (hc : d.cached = true) (hp : d.prediction = some p) :
    (submitStep s d).pred.prediction = some p ∧
    Action.navigate ("/result/" ++ toString p.id) ∈ (submitStep s d).log ∧
    (submitStep s d).pred.taskId = none ∧
    ∀ s', SysReach (submitStep s d) s' → s'.eng.probeCount = 0 := by
  obtain ⟨pred, eng, log⟩ := s
  obtain ⟨file, isub, tid, pid, prd⟩ := pred
  simp only at hf ht he
  subst hf
  subst ht
  subst he
  rcases d with ⟨dc, dp, dt, di⟩
  simp only at hc hp
  subst hc
  subst hp
  have hsub : submitStep
      { pred := { file := some f, isSubmitting := isub, taskId := none
                  predictionId := pid, prediction := prd }
        eng := engInit false, log := log }
      { cached := true, prediction := some p, task_id := dt, prediction_id := di } =
      { pred := { file := some f, isSubmitting := false, taskId := none
                  predictionId := pid, prediction := some p }
        eng := { engInit false with enabled := false }
        log := log ++ [Action.network "uploadImage",
                       Action.navigate ("/result/" ++ toString p.id)] } := by
    simp [submitStep, submit]
  rw [hsub]
  refine ⟨rfl, by simp, rfl, ?_⟩
  intro s' hr
  have hfix := sysFrozen hr rfl rfl
  rw [hfix]
  rfl

/-- Witness for C6: instantiated on the mounted system with a selected file
and the concrete cache-hit response. -/
theorem submit_cache_hit_witness :
    (submitStep sysReady cacheResp).pred.prediction = some { id := 5 } ∧
    (submitStep sysReady cacheResp).eng.probeCount = 0 := by
  have h := submit_cache_hit sysReady "xray.png" { id := 5 } cacheResp rfl rfl rfl rfl rfl
  exact ⟨h.1, h.2.2.2 _ (SysReach.refl _)⟩

/-- C7 counterexample: the claim says the reason carried by a failed probe
(here the server's `error: "x"`) is the message surfaced to the user.  In
scenario D the code surfaces the fixed text "Prediction failed. Please try
again." and the carried reason "x" appears nowhere. -/
theorem scenarioD_generic_message :
    srun scenarioDTrace sysDispatched = some scenarioDFinal ∧
    Action.toastError "Prediction failed. Please try again." ∈ scenarioDFinal.log ∧
    Action.toastError "x" ∉ scenarioDFinal.log := by decide

/-- C7 amended: when a probe returns a failed outcome, the Job stops after
that probe call — in scenario D the second probe settles `failed`, a
generic failure toast (not the carried reason) is surfaced, polling is
stopped, and in every state reachable afterwards the probe count is still
2, so no third probe ever occurs. -/
theorem scenarioD_failed_stops (s' : Sys) (h : SysReach scenarioDFinal s') :
    srun scenarioDTrace sysDispatched = some scenarioDFinal ∧
    s'.eng.probeCount = 2 ∧
    s'.eng.isPolling = false ∧
    s'.eng.timers = [] ∧
    Action.toastError "Prediction failed. Please try again." ∈ s'.log := by
  have hfix := sysFrozen h (by decide) (by decide)
  rw [hfix]
  exact ⟨by decide, by decide, by decide, by decide, by decide⟩

/-- Witness for C7's amended theorem: instantiated at the scenario's final
state itself. -/
theorem scenarioD_failed_stops_witness :
    srun scenarioDTrace sysDispatched = some scenarioDFinal ∧
    scenarioDFinal.eng.probeCount = 2 ∧
    scenarioDFinal.eng.isPolling = false ∧
    scenarioDFinal.eng.timers = [] ∧
    Action.toastError "Prediction failed. Please try again." ∈ scenarioDFinal.log :=
  scenarioD_failed_stops scenarioDFinal (SysReach.refl _)

/-- C8: reaching the `Result` route without a prior handoff (no prediction
in the navigation state, e.g. direct navigation or a stale bookmark) yields
the well-defined fallback rendering — a total function value, not a throw —
whose back affordance navigates to "/", the Upload (resubmission) route,
with an explanatory message; this holds for every route id. -/
theorem result_without_handoff (routeId : String) :
    renderResult routeId none =
      Rendering.notFound "/"
        "Prediction details are not available in this session. Please upload an image again to view a detailed result." :=
  rfl

/-- C9: `submit()` with no selected file surfaces the "select an image"
toast, issues no network call, and leaves the whole controller state
(including `taskId`, `predictionId`, `prediction`, `isSubmitting`)
unchanged. -/
theorem submit_without_file (st : PredState) (d : SubmitData) (h : st.file = none) :
    submit st d = (st, [Action.toastError "Please select an image first."]) := by
  unfold submit
  rw [h]

/-- Witness for C9: instantiated on the freshly mounted controller state. -/
theorem submit_without_file_witness :
    submit sysInit.pred cacheResp =
      (sysInit.pred, [Action.toastError "Please select an image first."]) :=
  submit_without_file sysInit.pred cacheResp rfl

/-- C10: a probe response with `status: "completed"` but no prediction
payload is not treated as a terminal success — `startPolling` keeps the
stored result unchanged, emits no navigation (only the status request), and
returns `true` so polling continues as for a `processing` outcome. -/
theorem startPolling_completed_without_payload (st : PredState) (t : String)
    (err : Option String) (h : st.taskId = some t) :
    startPolling st { status := "completed", prediction := none, error := err } =
      (true, st, [Action.network "getTaskStatus"]) := by
  unfold startPolling
  rw [h]
  simp

/-- Witness for C10: instantiated on the mid-polling controller state. -/
theorem startPolling_completed_without_payload_witness :
    startPolling pollingPred { status := "completed", prediction := none, error := none } =
      (true, pollingPred, [Action.network "getTaskStatus"]) :=
  startPolling_completed_without_payload pollingPred "t1" none rfl

end LungApp
